import Mathlib

/-!
Verification of the event-engine c-ares DNS resolver driver
(`src/core/lib/event_engine/ares_driver.cc`).

The definitions below are a shallow embedding of the driver's data model and
operations.  Pure computations are translated directly from the C++ source;
stateful code is modelled by explicit state passing.  External collaborators
(the c-ares stub, the event engine, address parsing helpers that live outside
the embedded translation unit) are modelled from their specified interfaces;
each such definition carries a doc comment saying so.
-/

set_option autoImplicit false

namespace AresDriver

/-! ## Status model

`absl::Status` as used by the driver: a code, a message, and (for
`grpc_error_add_child`) a list of child code/message pairs. -/

/-- The subset of `absl::StatusCode` values the driver distinguishes. -/
inductive AbslStatusCode where
  | kOk
  | kInvalidArgument
  | kUnknown
  | kCancelled
  | kDeadlineExceeded
  deriving DecidableEq, Repr

/-- A status value: code, message and accumulated children. -/
structure Status where
  code : AbslStatusCode
  msg : String
  children : List (AbslStatusCode × String)
  deriving DecidableEq, Repr

/-- `absl::OkStatus()`. -/
def okStatus : Status := ⟨AbslStatusCode.kOk, "", []⟩

/-- `Status::ok()`. -/
def Status.isOk (s : Status) : Bool := s.code == AbslStatusCode.kOk

/-- Modelled from the spec: `GRPC_ERROR_CREATE` at the stub-failure call sites
(`error.h` is outside the embedded sources); the spec's error table assigns
stub failures the `Unknown` code. -/
def mkUnknownError (msg : String) : Status := ⟨AbslStatusCode.kUnknown, msg, []⟩

/-- Modelled from the spec: error creation at the argument-validation call
sites of `Initialize`/`SetRequestDNSServer` and the localhost fast-fail
(`error.h` is outside the embedded sources); the spec's error table assigns
these conditions the `InvalidArgument` code. -/
def mkInvalidArgError (msg : String) : Status := ⟨AbslStatusCode.kInvalidArgument, msg, []⟩

/-- Modelled from the spec: `grpc_error_add_child` (`error.cc` is outside the
embedded sources).  An ok parent is replaced by the child; otherwise the child
is recorded under the parent, which stays non-ok. -/
def grpc_error_add_child (parent child : Status) : Status :=
  if parent.isOk then child
  else if child.isOk then parent
  else { parent with children := parent.children ++ [(child.code, child.msg)] }

/-- `ARES_SUCCESS`. -/
def ARES_SUCCESS : Nat := 0

/-! ## TXT reply parsing (`GrpcAresTXTRequest::OnTXTDoneLocked`) -/

/-- One record of the extended TXT reply (`struct ares_txt_ext`): the record
bytes (`txt`/`length`) and the `record_start` flag.  c-ares stores the record
as a NUL-terminated buffer of `length` bytes; the terminating byte is made
explicit where the byte-wise `memcmp` is modelled. -/
structure TxtExtRecord where
  data : List Nat
  record_start : Bool
  deriving DecidableEq, Repr

/-- `g_service_config_attribute_prefix` = `"grpc_config="` as bytes;
`g_prefix_len` = 12. -/
def serviceConfigAttributeBytes : List Nat :=
  [103, 114, 112, 99, 95, 99, 111, 110, 102, 105, 103, 61]

/-- `g_prefix_len = sizeof(g_service_config_attribute_prefix) - 1`. -/
def g_prefix_len : Nat := serviceConfigAttributeBytes.length

/-- The in-memory buffer c-ares hands back for a TXT record: the record bytes,
the NUL terminator, and whatever unowned memory follows the allocation. -/
def recordBuffer (r : TxtExtRecord) (junk : List Nat) : List Nat :=
  r.data ++ 0 :: junk

/-- The driver's selection test
`memcmp(result->txt, g_service_config_attribute_prefix, g_prefix_len) == 0`,
reading `g_prefix_len` bytes starting at the record buffer. -/
def memcmpPrefixEq (r : TxtExtRecord) (junk : List Nat) : Bool :=
  (recordBuffer r junk).take g_prefix_len == serviceConfigAttributeBytes

/-- The same selection test evaluated on the NUL-terminated buffer alone
(no bytes past the terminator are relevant; see
`memcmpPrefixEq_eq_txtRecordMatches`). -/
def txtRecordMatches (r : TxtExtRecord) : Bool :=
  (recordBuffer r []).take g_prefix_len == serviceConfigAttributeBytes

/-- The search loop of `OnTXTDoneLocked`: find the first record with
`record_start` set whose bytes begin with the service-config prefix, returning
it together with the records after it. -/
def findServiceConfigRecord : List TxtExtRecord → Option (TxtExtRecord × List TxtExtRecord)
  | [] => none
  | r :: rest =>
    if r.record_start && txtRecordMatches r then some (r, rest)
    else findServiceConfigRecord rest

/-- The extraction loop of `OnTXTDoneLocked`: the matching record's bytes past
the prefix, followed by the bytes of all immediately following records whose
`record_start` flag is clear. -/
def extractServiceConfig (reply : List TxtExtRecord) : List Nat :=
  match findServiceConfigRecord reply with
  | none => []
  | some (r, rest) =>
    r.data.drop g_prefix_len
      ++ (rest.takeWhile (fun x => !x.record_start)).flatMap (fun x => x.data)

/-- Modelled from the spec: `ares_strerror` (part of the stub black box). -/
def ares_strerror (status : Nat) : String := toString status

/-- The error status built by `OnTXTDoneLocked` when the stub or the parse
fails. -/
def txtErrorStatus (config_name : String) (status : Nat) : Status :=
  mkUnknownError
    ("c-ares status is not ARES_SUCCESS qtype=TXT name=" ++ config_name ++ ": "
      ++ ares_strerror status)

/-- `GrpcAresTXTRequest::OnTXTDoneLocked`: the argument handed to `OnResolve`.
`status` is the stub's completion status; `parsed` is the outcome of
`ares_parse_txt_reply_ext` (consulted only when `status` is `ARES_SUCCESS`). -/
def onTXTDoneLocked (config_name : String) (status : Nat)
    (parsed : Except Nat (List TxtExtRecord)) : Except Status (List Nat) :=
  if status = ARES_SUCCESS then
    match parsed with
    | Except.ok reply => Except.ok (extractServiceConfig reply)
    | Except.error _ => Except.error (txtErrorStatus config_name status)
  else Except.error (txtErrorStatus config_name status)

/-! ## Resolved addresses (`GrpcAresHostnameRequest::OnHostbynameDoneLocked`) -/

/-- `AF_INET`. -/
def AF_INET : Nat := 2

/-- `AF_INET6`. -/
def AF_INET6 : Nat := 10

/-- `htons` on a 16-bit value: the byte-swapped representation stored in
`sin_port`/`sin6_port`. -/
def htons (x : Nat) : Nat := (x % 256) * 256 + (x / 256) % 256

/-- A resolved socket address, reduced to the fields the driver writes:
address family, the 16-bit port field as stored (network byte order), and the
raw address bytes copied from the hostent. -/
structure ResolvedAddress where
  family : Nat
  port_net : Nat
  addr_bytes : List Nat
  deriving DecidableEq, Repr

/-- `struct hostent` as consumed by `OnHostbynameDoneLocked`: the address type
and the `h_addr_list` entries (each a byte string). -/
structure Hostent where
  h_addrtype : Nat
  h_addr_list : List (List Nat)
  deriving DecidableEq, Repr

/-- The success loop of `OnHostbynameDoneLocked`: for each entry of
`h_addr_list` build a `sockaddr_in6` (copying 16 bytes) or `sockaddr_in`
(copying 4 bytes) with the port field set to `htons(port)`; entries of any
other family fall through the `switch` and are skipped. -/
def hostentAddresses (port : Nat) (hostent : Hostent) : List ResolvedAddress :=
  hostent.h_addr_list.filterMap (fun bytes =>
    if hostent.h_addrtype = AF_INET6 then
      some ⟨AF_INET6, htons port, bytes.take 16⟩
    else if hostent.h_addrtype = AF_INET then
      some ⟨AF_INET, htons port, bytes.take 4⟩
    else none)

/-- `GrpcAresHostnameRequest::OnHostbynameDoneLocked`: the argument handed to
`OnResolve` — an error status when the stub reports failure, otherwise the
addresses built from the hostent. -/
def onHostbynameDoneLocked (qtype host : String) (port : Nat) (status : Nat)
    (hostent : Hostent) : Except Status (List ResolvedAddress) :=
  if status ≠ ARES_SUCCESS then
    Except.error (mkUnknownError
      ("c-ares status is not ARES_SUCCESS qtype=" ++ qtype ++ " name=" ++ host
        ++ ": " ++ ares_strerror status))
  else Except.ok (hostentAddresses port hostent)

/-- Modelled from the spec: `address_sorting_rfc_6724_sort` (the shared
address-sorting library is outside the embedded sources).  A stable sort of
the accumulated addresses by a destination-address preference key. -/
def sortResolvedAddresses (key : ResolvedAddress → Nat)
    (l : List ResolvedAddress) : List ResolvedAddress :=
  l.insertionSort (fun a b => key a ≤ key b)

/-- Splits a character list at `'.'` boundaries (structural helper for the
dotted-quad recognizer). -/
def splitOnDot : List Char → List (List Char)
  | [] => [[]]
  | c :: cs =>
    if c = '.' then [] :: splitOnDot cs
    else
      match splitOnDot cs with
      | [] => [[c]]
      | g :: gs => (c :: g) :: gs

/-- Modelled from the spec: the IPv4 branch of `grpc_parse_ipv4_hostport` /
`grpc_parse_ipv6_hostport` as applied by `ResolveAsIPLiteralLocked` to
`JoinHostPort(host_, port_)` (both helpers live outside the embedded
sources) — a dotted-quad recognizer: four all-digit groups, each below 256.
When the host is an IPv4 literal the resulting `sockaddr_in` carries the
parsed octets and `htons(port)` (spec P5, B1, B2); otherwise the parse
fails. -/
def parseIPv4Octets (host : String) : Option (List Nat) :=
  match (splitOnDot host.data).mapM (fun part =>
      if part ≠ [] ∧ part.all Char.isDigit then
        let v := part.foldl (fun acc c => acc * 10 + (c.toNat - 48)) 0
        if v < 256 then some v else none
      else none) with
  | some octets => if octets.length = 4 then some octets else none
  | none => none

/-- Modelled from the spec: recognizer for IPv6 literals as accepted by
`grpc_parse_ipv6_hostport` — hexadecimal groups separated by colons. -/
def isIPv6LiteralHost (host : String) : Bool :=
  host.data ≠ [] && host.data.all (fun c =>
      c.isDigit || (('a' ≤ c ∧ c ≤ 'f') : Bool) || (('A' ≤ c ∧ c ≤ 'F') : Bool)
        || c = ':' || c = '.')
    && host.data.contains ':'

/-- `GrpcAresHostnameRequest::ResolveAsIPLiteralLocked`: when `host_` is an IP
literal, the single-address result posted to `on_resolve` via the event
engine (`none` when the host is not a literal and the stub path must run). -/
def resolveAsIPLiteralLocked (host : String) (port : Nat) :
    Option (List ResolvedAddress) :=
  match parseIPv4Octets host with
  | some octets => some [⟨AF_INET, htons port, octets⟩]
  | none =>
    if isIPv6LiteralHost host then some [⟨AF_INET6, htons port, []⟩]
    else none

/-! ## Request base state, cancellation, and the socket-tracking loop -/

/-- `GrpcAresRequest::FdNode`: one tracked stub socket with its registration
flags and shutdown mark (the owned `GrpcPolledFd` is represented by the
socket handle it wraps). -/
structure FdNode where
  as : Nat
  readable_registered : Bool
  writable_registered : Bool
  already_shutdown : Bool
  deriving DecidableEq, Repr

/-- The mutable base-request fields shared by the three request kinds. -/
structure RequestBase where
  shutting_down : Bool
  cancelled : Bool
  fd_node_list : List FdNode
  query_timeout_pending : Bool
  backup_poll_pending : Bool
  deriving DecidableEq, Repr

/-- `GrpcAresRequest::ShutdownPollerHandlesLocked`: every node not already
shut down is shut down (the status delivered to the polled fds is returned
alongside for bookkeeping). -/
def shutdownPollerHandlesLocked (b : RequestBase) : RequestBase :=
  { b with fd_node_list := b.fd_node_list.map (fun n =>
      if n.already_shutdown then n else { n with already_shutdown := true }) }

/-- `GrpcAresRequest::CancelTimers`: both pending timer handles are cancelled
and reset. -/
def cancelTimers (b : RequestBase) : RequestBase :=
  { b with query_timeout_pending := false, backup_poll_pending := false }

/-- `GrpcAresRequest::Cancel`: `std::exchange(shutting_down_, true)`; if the
request was already shutting down, return `false`; otherwise set `cancelled_`,
cancel the timers, shut down the poller handles, and return `true`. -/
def Cancel (b : RequestBase) : Bool × RequestBase :=
  if b.shutting_down then (false, b)
  else
    (true,
      shutdownPollerHandlesLocked
        (cancelTimers { b with shutting_down := true, cancelled := true }))

/-- One slot of the `ares_getsock` answer: a socket plus the readable/writable
interest bits `ARES_GETSOCK_READABLE`/`ARES_GETSOCK_WRITABLE` of its index. -/
structure SockInterest where
  as : Nat
  readable : Bool
  writable : Bool
  deriving DecidableEq, Repr

/-- `FdNodeList::PopFdNode(as)`: remove and return the first node wrapping
socket `as`, if any. -/
def popFdNode (as : Nat) : List FdNode → Option FdNode × List FdNode
  | [] => (none, [])
  | n :: rest =>
    if n.as = as then (some n, rest)
    else
      let p := popFdNode as rest
      (p.1, n :: p.2)

/-- The read-registration step of the first `Work` loop: when the stub wants
the socket readable and no read callback is outstanding, mark the
registration (the armed closure itself is not modelled). -/
def setReadableReg (s : SockInterest) (n : FdNode) : FdNode :=
  if s.readable && !n.readable_registered then
    { n with readable_registered := true }
  else n

/-- The write-registration step of the first `Work` loop. -/
def setWritableReg (s : SockInterest) (n : FdNode) : FdNode :=
  if s.writable && !n.writable_registered then
    { n with writable_registered := true }
  else n

/-- The node pushed onto the new list for one interesting slot: the popped
existing node, or a freshly allocated one, with the newly armed registrations
marked. -/
def adoptNode (s : SockInterest) (popped : Option FdNode) : FdNode :=
  setWritableReg s (setReadableReg s (popped.getD ⟨s.as, false, false, false⟩))

/-- One iteration of the first `Work` loop, for one `ares_getsock` slot: pop
the existing node for the socket (or allocate a fresh one), push it onto the
new list, and mark the newly armed registrations.  Slots with neither
interest bit are skipped.  The state is the pair (remaining old list, new
list). -/
def workAdoptSock (st : List FdNode × List FdNode) (s : SockInterest) :
    List FdNode × List FdNode :=
  if s.readable || s.writable then
    let p := popFdNode s.as st.1
    (p.2, st.2 ++ [adoptNode s p.1])
  else st

/-- The second `Work` loop over the nodes left in `fd_node_list_`: shut each
one down with an ok status if not already shut down, then delete it when no
readiness registration is outstanding, otherwise keep it on the new list.
Returns (kept nodes, `ShutdownLocked` calls as socket/status pairs, sockets of
deleted nodes). -/
def workCleanup : List FdNode → List FdNode × List (Nat × Status) × List Nat
  | [] => ([], [], [])
  | n :: rest =>
    let shut := if n.already_shutdown then n else { n with already_shutdown := true }
    let ev : List (Nat × Status) := if n.already_shutdown then [] else [(n.as, okStatus)]
    let tail := workCleanup rest
    if !shut.readable_registered && !shut.writable_registered then
      (tail.1, ev ++ tail.2.1, n.as :: tail.2.2)
    else
      (shut :: tail.1, ev ++ tail.2.1, tail.2.2)

/-- The outcome of one `Work` call: the list swapped into `fd_node_list_`,
the `ShutdownLocked` calls made on leftover nodes, and the nodes deleted. -/
structure WorkResult where
  fd_node_list : List FdNode
  shutdowns : List (Nat × Status)
  deleted : List Nat
  deriving DecidableEq, Repr

/-- `GrpcAresRequest::Work`: build the new list from the stub's currently
interesting sockets (skipped entirely when shutting down), then shut down,
delete or carry over whatever is left of the old list, and swap. -/
def Work (shutting_down : Bool) (socks : List SockInterest)
    (old : List FdNode) : WorkResult :=
  let phase1 :=
    if shutting_down then (old, ([] : List FdNode))
    else socks.foldl workAdoptSock (old, [])
  let cleanup := workCleanup phase1.1
  ⟨phase1.2 ++ cleanup.1, cleanup.2.1, cleanup.2.2⟩

/-- The sockets the stub currently cares about, as diffed by `Work`: none when
shutting down, otherwise the slots with a readable or writable interest bit. -/
def wantedSockets (shutting_down : Bool) (socks : List SockInterest) : List Nat :=
  if shutting_down then []
  else (socks.filter (fun s => s.readable || s.writable)).map SockInterest.as

/-! ## Hostname request: completion combiner (`GrpcAresHostnameRequest::OnResolve`) -/

/-- The mutable state of a `GrpcAresHostnameRequest`: the base-request fields,
the pending A/AAAA counter, the accumulated addresses (`result_`), the
accumulated error (`error_`), and the user callback once posted through the
event engine. -/
structure HostnameState where
  base : RequestBase
  pending_queries : Nat
  result : List ResolvedAddress
  error : Status
  posted : Option (Except Status (List ResolvedAddress))
  deriving Repr

/-- The head of `GrpcAresHostnameRequest::OnResolve`: decrement
`pending_queries_`, append an ok result to `result_`, fold an error into
`error_` via `grpc_error_add_child`. -/
def hostnameAccumulate (r : Except Status (List ResolvedAddress))
    (s : HostnameState) : HostnameState :=
  { s with
    pending_queries := s.pending_queries - 1,
    result := match r with
      | Except.ok addrs => s.result ++ addrs
      | Except.error _ => s.result,
    error := match r with
      | Except.ok _ => s.error
      | Except.error e => grpc_error_add_child s.error e }

/-- The `pending_queries_ == 0` tail of `GrpcAresHostnameRequest::OnResolve`:
a cancelled request releases the cleanup reference and returns without
posting; otherwise the request marks itself shutting down, cancels the
timers, and posts — the sorted addresses when any accumulated, else the
accumulated error (whose non-ok-ness the source asserts with
`GPR_ASSERT(!error_.ok())`, modelled as `none`). -/
def hostnameComplete (key : ResolvedAddress → Nat) (s : HostnameState) :
    Option HostnameState :=
  if s.base.cancelled then some s
  else
    let s2 : HostnameState :=
      { s with base := cancelTimers { s.base with shutting_down := true } }
    if s2.result ≠ [] then
      some { s2 with
        posted := some (Except.ok (sortResolvedAddresses key s2.result)) }
    else if s2.error.isOk then none
    else some { s2 with posted := some (Except.error s2.error) }

/-- `GrpcAresHostnameRequest::OnResolve`, one per-query completion.  `none`
models a `GPR_ASSERT` failure (`pending_queries_ > 0` on entry; the non-ok
accumulated-error assertion sits in `hostnameComplete`). -/
def hostnameOnResolve (key : ResolvedAddress → Nat)
    (r : Except Status (List ResolvedAddress)) (s : HostnameState) :
    Option HostnameState :=
  if s.pending_queries = 0 then none
  else
    let s1 := hostnameAccumulate r s
    if s1.pending_queries ≠ 0 then some s1
    else hostnameComplete key s1

/-- A sequence of per-query completions delivered to `OnResolve`, in order. -/
def runHostnameOnResolve (key : ResolvedAddress → Nat) :
    List (Except Status (List ResolvedAddress)) → HostnameState →
    Option HostnameState
  | [], s => some s
  | r :: rs, s => (hostnameOnResolve key r s).bind (runHostnameOnResolve key rs)

/-- The state of a hostname request right after `Start` issued its queries:
`pending_queries_` counts the issued lookups, nothing accumulated yet. -/
def initialHostnameState (pending : Nat) : HostnameState :=
  { base := { shutting_down := false, cancelled := false, fd_node_list := [],
              query_timeout_pending := true, backup_poll_pending := true },
    pending_queries := pending, result := [], error := okStatus, posted := none }

/-- The addresses accumulated into `result_` by a sequence of per-query
completions. -/
def accumulatedAddresses (rs : List (Except Status (List ResolvedAddress))) :
    List ResolvedAddress :=
  rs.flatMap (fun r => match r with
    | Except.ok addrs => addrs
    | Except.error _ => [])

/-- The error accumulated into `error_` by a sequence of per-query
completions, starting from `e0`. -/
def accumulatedErrorFrom (e0 : Status)
    (rs : List (Except Status (List ResolvedAddress))) : Status :=
  rs.foldl (fun e r => match r with
    | Except.ok _ => e
    | Except.error st => grpc_error_add_child e st) e0

/-- Decidable side condition mirroring the c-ares contract that a successful
`ares_gethostbyname` reports at least one address (`ARES_ENODATA`
otherwise): every ok completion in the sequence carries a non-empty list. -/
def okReportsNonempty (rs : List (Except Status (List ResolvedAddress))) : Bool :=
  rs.all (fun r => match r with
    | Except.ok addrs => !addrs.isEmpty
    | Except.error _ => true)

/-- Decidable side condition mirroring the driver: every error handed to
`OnResolve` is one built by `OnHostbynameDoneLocked` via `GRPC_ERROR_CREATE`,
hence non-ok. -/
def errorReportsNonOk (rs : List (Except Status (List ResolvedAddress))) : Bool :=
  rs.all (fun r => match r with
    | Except.ok _ => true
    | Except.error e => !e.isOk)

/-! ## SRV and TXT requests: completion and `Start` -/

/-- One record of `EventEngine::DNSResolver::SRVRecord`. -/
structure SRVRecord where
  host : String
  port : Nat
  priority : Nat
  weight : Nat
  deriving DecidableEq, Repr

/-- The mutable state of a `GrpcAresSRVRequest`. -/
structure SRVState where
  base : RequestBase
  posted : Option (Except Status (List SRVRecord))
  deriving Repr

/-- The mutable state of a `GrpcAresTXTRequest` (the result is the
service-config byte string). -/
structure TXTState where
  base : RequestBase
  posted : Option (Except Status (List Nat))
  deriving Repr

/-- `GrpcAresSRVRequest::OnResolve`: when cancelled, only the cleanup ref is
released; otherwise mark shutting down, cancel the timers and post the result
through the event engine. -/
def srvOnResolve (r : Except Status (List SRVRecord)) (s : SRVState) : SRVState :=
  if s.base.cancelled then s
  else
    { base := cancelTimers { s.base with shutting_down := true },
      posted := some r }

/-- `GrpcAresTXTRequest::OnResolve`: same single-shot shape as the SRV
completion. -/
def txtOnResolve (r : Except Status (List Nat)) (s : TXTState) : TXTState :=
  if s.base.cancelled then s
  else
    { base := cancelTimers { s.base with shutting_down := true },
      posted := some r }

/-- Modelled from the spec: `gpr_stricmp(...) == 0` (`gpr/string.cc` is
outside the embedded sources) — ASCII case-insensitive string equality. -/
def striEq (a b : String) : Bool :=
  a.data.map Char.toLower == b.data.map Char.toLower

/-- What one `GrpcAresSRVRequest::Start` / `GrpcAresTXTRequest::Start` call
does, as observable effects: the error posted immediately through the event
engine (localhost fast-fail), the derived name handed to the stub query, and
whether `Work`, `StartTimers` and the explicit release of the `Start`
reference ran. -/
structure StartOutcome where
  posted_immediate : Option Status
  queried_name : Option String
  ran_work : Bool
  started_timers : Bool
  released_start_ref : Bool
  deriving DecidableEq, Repr

/-- `GrpcAresSRVRequest::Start`: localhost targets are failed immediately with
an `InvalidArgument` error posted via the event engine; otherwise the
`_grpclb._tcp.` SRV query is issued and, unless an inline completion already
began shutdown, `Work` and the timers run. -/
def srvStart (host : String) (shutting_down_after_query : Bool) : StartOutcome :=
  if striEq host "localhost" then
    { posted_immediate :=
        some (mkInvalidArgError "Skip querying for SRV records for localhost target"),
      queried_name := none, ran_work := false, started_timers := false,
      released_start_ref := true }
  else
    { posted_immediate := none,
      queried_name := some ("_grpclb._tcp." ++ host),
      ran_work := !shutting_down_after_query,
      started_timers := !shutting_down_after_query,
      released_start_ref := false }

/-- `GrpcAresTXTRequest::Start`: same shape with the `_grpc_config.` name. -/
def txtStart (host : String) (shutting_down_after_query : Bool) : StartOutcome :=
  if striEq host "localhost" then
    { posted_immediate :=
        some (mkInvalidArgError "Skip querying for TXT records localhost target"),
      queried_name := none, ran_work := false, started_timers := false,
      released_start_ref := true }
  else
    { posted_immediate := none,
      queried_name := some ("_grpc_config." ++ host),
      ran_work := !shutting_down_after_query,
      started_timers := !shutting_down_after_query,
      released_start_ref := false }

/-! ## Hostname `Start`: pending-counter discipline (non-IP-literal path) -/

/-- One observable step of `GrpcAresHostnameRequest::Start` past the
IP-literal early-out: a `pending_queries_++` (recording the new counter
value) or an `ares_gethostbyname` call. -/
inductive HostnameStartStep where
  | incPending (newValue : Nat)
  | gethostbyname (family : Nat) (qtype : String)
  deriving DecidableEq, Repr

/-- The step sequence of `GrpcAresHostnameRequest::Start` on the
non-IP-literal path, translated from the source: increment the counter, then
— when IPv6 loopback is available — increment again and issue the AAAA
lookup, then always issue the A lookup. -/
def hostnameStartSteps (ipv6_loopback_available : Bool) : List HostnameStartStep :=
  [HostnameStartStep.incPending 1]
    ++ (if ipv6_loopback_available then
          [HostnameStartStep.incPending 2,
           HostnameStartStep.gethostbyname AF_INET6 "AAAA"]
        else [])
    ++ [HostnameStartStep.gethostbyname AF_INET "A"]

/-- Is the step a counter increment? -/
def HostnameStartStep.isInc : HostnameStartStep → Bool
  | HostnameStartStep.incPending _ => true
  | _ => false

/-- Is the step a stub lookup? -/
def HostnameStartStep.isQuery : HostnameStartStep → Bool
  | HostnameStartStep.gethostbyname _ _ => true
  | _ => false

/-- The lookups issued in a step sequence, in order. -/
def issuedQueries (steps : List HostnameStartStep) : List (Nat × String) :=
  steps.filterMap (fun st => match st with
    | HostnameStartStep.gethostbyname fam q => some (fam, q)
    | _ => none)

/-- The value of `pending_queries_` after replaying the counter updates of a
step sequence (lookups leave it unchanged). -/
def pendingAfter (steps : List HostnameStartStep) : Nat :=
  steps.foldl (fun acc st => match st with
    | HostnameStartStep.incPending v => v
    | _ => acc) 0

/-! ## `GrpcAresRequest::Initialize` -/

/-- Modelled from the spec: `grpc_core::SplitHostPort` (`host_port.cc` is
outside the embedded sources).  Splits `name` into host and port: the
bracketed form `[v6host]:port` strips the brackets; otherwise the name is
split at the colon when it contains exactly one, and is all host when it
contains none or several.  A malformed bracketed name leaves the host empty,
which `Initialize` reports as an unparseable host:port. -/
def splitHostPort (name : String) : String × String :=
  match name.data with
  | '[' :: rest =>
    let inside := rest.takeWhile (fun c => c ≠ ']')
    let after := rest.dropWhile (fun c => c ≠ ']')
    match after with
    | ']' :: [] =>
      if inside.contains ':' then (String.mk inside, "") else ("", "")
    | ']' :: ':' :: port =>
      if inside.contains ':' then (String.mk inside, String.mk port) else ("", "")
    | _ => ("", "")
  | cs =>
    if (cs.filter (fun c => c = ':')).length = 1 then
      (String.mk (cs.takeWhile (fun c => c ≠ ':')),
       String.mk ((cs.dropWhile (fun c => c ≠ ':')).drop 1))
    else (name, "")

/-- Modelled from the spec: `absl::SimpleAtoi` into the `u16` port field —
a non-empty all-digit decimal numeral that fits in 16 bits. -/
def parseDecimalU16 (s : String) : Option Nat :=
  if s.data ≠ [] ∧ s.data.all Char.isDigit then
    let v := s.data.foldl (fun acc c => acc * 10 + (c.toNat - 48)) 0
    if v < 65536 then some v else none
  else none

/-- Modelled from the spec (§6.5): the dns-server override syntax accepted by
`SetRequestDNSServer` via `grpc_parse_ipv4_hostport` /
`grpc_parse_ipv6_hostport` — `<ipv4>:<port>` or bracketed `<ipv6>:<port>`,
with a numeric port. -/
def dnsServerParses (dns_server : String) : Bool :=
  let hp := splitHostPort dns_server
  ((parseIPv4Octets hp.1).isSome || isIPv6LiteralHost hp.1)
    && (parseDecimalU16 hp.2).isSome

/-- `GrpcAresRequest::SetRequestDNSServer`: an empty server string is a
no-op; otherwise the string must parse as an IPv4 or IPv6 host:port
(`InvalidArgument` otherwise), and the parsed address becomes the channel's
sole server (`ares_set_servers_ports`, modelled as succeeding). -/
def setRequestDNSServer (dns_server : String) : Except Status Unit :=
  if dns_server = "" then Except.ok ()
  else if dnsServerParses dns_server then Except.ok ()
  else Except.error (mkInvalidArgError ("cannot parse authority " ++ dns_server))

/-- The outcome of `GrpcAresRequest::Initialize`: success with the parsed
host and numeric port, a returned error status, or a failed `GPR_ASSERT`
(process abort — the call does not return). -/
inductive InitOutcome where
  | initialized (host : String) (port : Nat)
  | failed (st : Status)
  | assertFailed
  deriving DecidableEq, Repr

/-- `GrpcAresRequest::Initialize`: split the name (empty host ⇒
`InvalidArgument`), default the port when `check_port` and the name has none
(`InvalidArgument` when there is no default either), then parse a non-empty
port with `GPR_ASSERT(absl::SimpleAtoi(port, &port_))` — a non-numeric port
fails the assertion.  Channel creation (`ares_init_options`, stub black box)
is modelled as succeeding; a dns-server parse failure destroys the channel
and returns the error. -/
def Initialize (name default_port dns_server : String) (check_port : Bool) :
    InitOutcome :=
  let hp := splitHostPort name
  if hp.1 = "" then
    InitOutcome.failed (mkInvalidArgError "unparseable host:port")
  else if check_port ∧ hp.2 = "" ∧ default_port = "" then
    InitOutcome.failed (mkInvalidArgError "no port in name")
  else
    let port_str := if check_port ∧ hp.2 = "" then default_port else hp.2
    let port? : Option Nat :=
      if port_str = "" then some 0
      else parseDecimalU16 port_str
    match port? with
    | none => InitOutcome.assertFailed
    | some p =>
      match setRequestDNSServer dns_server with
      | Except.error st => InitOutcome.failed st
      | Except.ok _ => InitOutcome.initialized hp.1 p

/-- `Cancel()` as invoked on a hostname request: the inherited base-class
implementation acting on the embedded base fields. -/
def hostnameCancel (s : HostnameState) : Bool × HostnameState :=
  let c := Cancel s.base
  (c.1, { s with base := c.2 })

/-- `Cancel()` as invoked on an SRV request. -/
def srvCancel (s : SRVState) : Bool × SRVState :=
  let c := Cancel s.base
  (c.1, { s with base := c.2 })

/-- `Cancel()` as invoked on a TXT request. -/
def txtCancel (s : TXTState) : Bool × TXTState :=
  let c := Cancel s.base
  (c.1, { s with base := c.2 })

/-! ## Spec-side characterizations -/

/-- Restates the spec's TXT-extraction rule in its own words, for comparison
with `extractServiceConfig`: locate the first record whose `record_start`
flag is set and whose text begins with the literal `grpc_config=` prefix;
append that record's tail and all subsequent non-`record_start` records; the
empty string when no record matches. -/
def specServiceConfigExtraction (reply : List TxtExtRecord) : List Nat :=
  match reply.dropWhile
      (fun r => !(r.record_start && serviceConfigAttributeBytes.isPrefixOf r.data)) with
  | [] => []
  | r :: rest =>
    r.data.drop g_prefix_len
      ++ (rest.takeWhile (fun x => !x.record_start)).flatMap (fun x => x.data)

/-! ## Theorems -/

/-- Helper: a buffer shorter than `pref` and then NUL-terminated never
compares equal to a NUL-free `pref` over `pref.length` bytes — the comparison
hits the terminator first. -/
theorem take_append_nul_ne : ∀ (pref data junk : List Nat), 0 ∉ pref →
    data.length < pref.length → (data ++ 0 :: junk).take pref.length ≠ pref
  | [], _, _, _, h => by simp at h
  | p :: ps, [], junk, hp, _ => by
    intro heq
    simp only [List.nil_append, List.length_cons, List.take_succ_cons,
      List.cons.injEq] at heq
    exact hp (heq.1 ▸ List.mem_cons_self p ps)
  | p :: ps, d :: ds, junk, hp, h => by
    intro heq
    simp only [List.cons_append, List.length_cons, List.take_succ_cons,
      List.cons.injEq] at heq
    exact take_append_nul_ne ps ds junk
      (fun hmem => hp (List.mem_cons_of_mem _ hmem))
      (Nat.lt_of_succ_lt_succ (by simpa using h)) heq.2

/-- Helper: `g_prefix_len` unfolded. -/
theorem g_prefix_len_eq : g_prefix_len = serviceConfigAttributeBytes.length := rfl

/-- Helper: the bytes past the record's NUL terminator never affect the
prefix comparison. -/
theorem memcmpPrefixEq_eq_txtRecordMatches (r : TxtExtRecord) (junk : List Nat) :
    memcmpPrefixEq r junk = txtRecordMatches r := by
  unfold memcmpPrefixEq txtRecordMatches recordBuffer
  rcases le_or_lt g_prefix_len r.data.length with h | h
  · rw [List.take_append_of_le_length h, List.take_append_of_le_length h]
  · have h1 := take_append_nul_ne serviceConfigAttributeBytes r.data junk
      (by decide) (by rw [← g_prefix_len_eq]; exact h)
    have h2 := take_append_nul_ne serviceConfigAttributeBytes r.data []
      (by decide) (by rw [← g_prefix_len_eq]; exact h)
    rw [g_prefix_len_eq, beq_eq_false_iff_ne.mpr h1, beq_eq_false_iff_ne.mpr h2]

/-- Helper: the driver's `memcmp`-based selection test agrees with "the
record's text begins with the `grpc_config=` prefix". -/
theorem txtRecordMatches_eq_isPrefixOf (r : TxtExtRecord) :
    txtRecordMatches r = serviceConfigAttributeBytes.isPrefixOf r.data := by
  rcases le_or_lt g_prefix_len r.data.length with h | h
  · unfold txtRecordMatches recordBuffer
    rw [List.take_append_of_le_length h]
    rcases hb : serviceConfigAttributeBytes.isPrefixOf r.data with _ | _
    · rw [beq_eq_false_iff_ne]
      intro heq
      have : serviceConfigAttributeBytes <+: r.data := by
        rw [List.prefix_iff_eq_take, ← g_prefix_len_eq, heq]
      rw [List.isPrefixOf_iff_prefix.mpr this] at hb
      exact Bool.false_ne_true hb.symm
    · have hpre := List.isPrefixOf_iff_prefix.mp hb
      rw [List.prefix_iff_eq_take] at hpre
      rw [← g_prefix_len_eq] at hpre
      rw [← hpre]
      exact beq_self_eq_true _
  · have h2 := take_append_nul_ne serviceConfigAttributeBytes r.data []
      (by decide) (by rw [← g_prefix_len_eq]; exact h)
    have hnp : serviceConfigAttributeBytes.isPrefixOf r.data = false := by
      rcases hb : serviceConfigAttributeBytes.isPrefixOf r.data with _ | _
      · rfl
      · have := (List.isPrefixOf_iff_prefix.mp hb).length_le
        rw [← g_prefix_len_eq] at this
        omega
    unfold txtRecordMatches recordBuffer
    rw [hnp, g_prefix_len_eq, beq_eq_false_iff_ne.mpr h2]

/-- Helper: the translated extraction loop computes exactly the spec's
extraction rule. -/
theorem extractServiceConfig_eq_spec (reply : List TxtExtRecord) :
    extractServiceConfig reply = specServiceConfigExtraction reply := by
  induction reply with
  | nil => rfl
  | cons r rest ih =>
    unfold extractServiceConfig specServiceConfigExtraction
      findServiceConfigRecord
    rw [List.dropWhile_cons, txtRecordMatches_eq_isPrefixOf]
    rcases hc : r.record_start && serviceConfigAttributeBytes.isPrefixOf r.data with _ | _
    · rw [if_neg Bool.false_ne_true, if_pos (show (!false) = true from rfl)]
      exact ih
    · rw [if_pos (show (true = true) from rfl),
        if_neg (show ¬((!true) = true) from by decide)]

/-- C5: for every successfully parsed TXT reply, the result handed to
`OnResolve` is a success carrying the payload built from the first record
whose `record_start` flag is set and whose text begins with `grpc_config=` —
its bytes past the prefix concatenated with every immediately following
non-`record_start` record — and the empty string (still a success) when no
record matches. -/
theorem txt_result_is_spec_extraction (config_name : String)
    (reply : List TxtExtRecord) :
    onTXTDoneLocked config_name ARES_SUCCESS (Except.ok reply)
      = Except.ok (specServiceConfigExtraction reply) := by
  simp [onTXTDoneLocked, extractServiceConfig_eq_spec]

/-- C10: whenever the TXT selection test fires — `record_start` set and the
12-byte `memcmp` against `grpc_config=` succeeding, no matter what bytes sit
past the record's NUL terminator — the record holds at least `g_prefix_len`
bytes, so `result->length - g_prefix_len` cannot underflow and the extracted
payload `data.drop g_prefix_len` lies inside the record's text. -/
theorem txt_selected_record_long_enough (r : TxtExtRecord) (junk : List Nat)
    (_hstart : r.record_start = true) (hmatch : memcmpPrefixEq r junk = true) :
    g_prefix_len ≤ r.data.length ∧
      r.data.length - g_prefix_len + g_prefix_len = r.data.length := by
  have hle : g_prefix_len ≤ r.data.length := by
    by_contra hlt
    have h2 := take_append_nul_ne serviceConfigAttributeBytes r.data junk
      (by decide) (by rw [← g_prefix_len_eq]; omega)
    rw [memcmpPrefixEq_eq_txtRecordMatches] at hmatch
    rw [txtRecordMatches_eq_isPrefixOf] at hmatch
    have := (List.isPrefixOf_iff_prefix.mp hmatch).length_le
    rw [← g_prefix_len_eq] at this
    omega
  exact ⟨hle, by omega⟩

/-- Witness for C10 at a concrete record: the prefix record itself. -/
theorem txt_selected_record_long_enough_witness :
    g_prefix_len ≤ (TxtExtRecord.mk serviceConfigAttributeBytes true).data.length ∧
      (TxtExtRecord.mk serviceConfigAttributeBytes true).data.length - g_prefix_len
          + g_prefix_len
        = (TxtExtRecord.mk serviceConfigAttributeBytes true).data.length :=
  txt_selected_record_long_enough ⟨serviceConfigAttributeBytes, true⟩ []
    (by decide) (by decide)

/-- C4: on the non-IP-literal path of `GrpcAresHostnameRequest::Start`, every
`pending_queries_` update precedes every `ares_gethostbyname` call, the
counter is set to 1 and then to 2 exactly when IPv6 loopback is available,
its value when the lookups are issued equals the number of lookups issued,
an AAAA lookup is issued iff IPv6 loopback is available, and an A lookup is
always issued. -/
theorem hostname_start_pending_counter (lb : Bool) :
    (hostnameStartSteps lb =
        (hostnameStartSteps lb).filter HostnameStartStep.isInc
          ++ (hostnameStartSteps lb).filter HostnameStartStep.isQuery) ∧
    ((hostnameStartSteps lb).filter HostnameStartStep.isInc =
        if lb then [HostnameStartStep.incPending 1, HostnameStartStep.incPending 2]
        else [HostnameStartStep.incPending 1]) ∧
    pendingAfter (hostnameStartSteps lb)
        = (issuedQueries (hostnameStartSteps lb)).length ∧
    (issuedQueries (hostnameStartSteps lb) =
        if lb then [(AF_INET6, "AAAA"), (AF_INET, "A")] else [(AF_INET, "A")]) := by
  cases lb <;> decide

/-- C9: an SRV or TXT `Start` whose parsed host is `localhost` under the
case-insensitive comparison immediately posts the `InvalidArgument`
skip-querying error through the event engine and releases the `Start`
reference, issuing no stub query, running no `Work`, and arming no timer. -/
theorem srv_txt_localhost_fast_fail (host : String) (sd : Bool)
    (hlocal : striEq host "localhost" = true) :
    srvStart host sd =
      { posted_immediate := some (mkInvalidArgError
          "Skip querying for SRV records for localhost target"),
        queried_name := none, ran_work := false, started_timers := false,
        released_start_ref := true } ∧
    txtStart host sd =
      { posted_immediate := some (mkInvalidArgError
          "Skip querying for TXT records localhost target"),
        queried_name := none, ran_work := false, started_timers := false,
        released_start_ref := true } := by
  refine ⟨?_, ?_⟩ <;> simp [srvStart, txtStart, hlocal]

/-- Witness for C9 at `host = "LocalHost"` (spec boundary case B5). -/
theorem srv_txt_localhost_fast_fail_witness :
    srvStart "LocalHost" false =
      { posted_immediate := some (mkInvalidArgError
          "Skip querying for SRV records for localhost target"),
        queried_name := none, ran_work := false, started_timers := false,
        released_start_ref := true } ∧
    txtStart "LocalHost" false =
      { posted_immediate := some (mkInvalidArgError
          "Skip querying for TXT records localhost target"),
        queried_name := none, ran_work := false, started_timers := false,
        released_start_ref := true } :=
  srv_txt_localhost_fast_fail "LocalHost" false (by decide)

/-- Helper: a `SetRequestDNSServer` failure carries the `InvalidArgument`
code. -/
theorem setRequestDNSServer_error_invalid (dns_server : String) (st : Status)
    (h : setRequestDNSServer dns_server = Except.error st) :
    st.code = AbslStatusCode.kInvalidArgument := by
  unfold setRequestDNSServer at h
  split at h
  · simp at h
  · split at h
    · simp at h
    · simp only [Except.error.injEq] at h
      rw [← h]
      rfl

/-- C8: every error status returned by `Create`/`Initialize` — unparseable
host:port (empty host), missing port without a default when `check_port` is
set, or an unparseable dns_server — has status code `InvalidArgument`. -/
theorem initialize_errors_invalid_argument (name default_port dns_server : String)
    (check_port : Bool) (st : Status)
    (hfail : Initialize name default_port dns_server check_port
      = InitOutcome.failed st) :
    st.code = AbslStatusCode.kInvalidArgument := by
  simp only [Initialize] at hfail
  by_cases h1 : (splitHostPort name).1 = ""
  · rw [if_pos h1] at hfail
    simp only [InitOutcome.failed.injEq] at hfail
    subst hfail
    rfl
  · rw [if_neg h1] at hfail
    by_cases h2 : check_port = true ∧ (splitHostPort name).2 = "" ∧ default_port = ""
    · rw [if_pos h2] at hfail
      simp only [InitOutcome.failed.injEq] at hfail
      subst hfail
      rfl
    · rw [if_neg h2] at hfail
      rcases hopt : (if (if check_port = true ∧ (splitHostPort name).2 = ""
            then default_port else (splitHostPort name).2) = "" then some 0
          else parseDecimalU16 (if check_port = true ∧ (splitHostPort name).2 = ""
            then default_port else (splitHostPort name).2)) with _ | p
      · rw [hopt] at hfail
        simp at hfail
      · rw [hopt] at hfail
        rcases hs : setRequestDNSServer dns_server with st' | u
        · rw [hs] at hfail
          simp only [InitOutcome.failed.injEq] at hfail
          subst hfail
          exact setRequestDNSServer_error_invalid dns_server _ hs
        · rw [hs] at hfail
          simp at hfail

/-- Witness for C8 at `name = ":80"` (empty host). -/
theorem initialize_errors_invalid_argument_witness :
    (mkInvalidArgError "unparseable host:port").code
      = AbslStatusCode.kInvalidArgument :=
  initialize_errors_invalid_argument ":80" "" "" true
    (mkInvalidArgError "unparseable host:port") (by decide)

/-- C7 counterexample: with `name = "h:xyz"` the port part is present and
non-numeric, yet `Initialize` does not return a failure status — the
`GPR_ASSERT(absl::SimpleAtoi(port, &port_))` fails and the process aborts. -/
theorem initialize_nonnumeric_port_counterexample :
    Initialize "h:xyz" "" "" true = InitOutcome.assertFailed := by decide

/-- C7 (amended): for every name whose host part is non-empty and whose port
part is present but not a decimal u16 numeral, `Initialize` fails the
`GPR_ASSERT` around `absl::SimpleAtoi` and aborts instead of returning a
failure status (no query is issued and the request is never marked
initialized). -/
theorem initialize_nonnumeric_port_asserts (name default_port dns_server : String)
    (check_port : Bool)
    (hhost : (splitHostPort name).1 ≠ "")
    (hport : (splitHostPort name).2 ≠ "")
    (hbad : parseDecimalU16 (splitHostPort name).2 = none) :
    Initialize name default_port dns_server check_port
      = InitOutcome.assertFailed := by
  simp only [Initialize]
  rw [if_neg hhost, if_neg (fun h => hport h.2.1),
    if_neg (show ¬(check_port = true ∧ (splitHostPort name).2 = "") from
      fun h => hport h.2),
    if_neg hport, hbad]

/-- Witness for the amended C7 at `name = "example.com:99999"` (a port that
overflows u16). -/
theorem initialize_nonnumeric_port_asserts_witness :
    Initialize "example.com:99999" "" "" true = InitOutcome.assertFailed :=
  initialize_nonnumeric_port_asserts "example.com:99999" "" "" true
    (by decide) (by decide) (by decide)

/-! ### Combiner helper lemmas -/

/-- Helper: the accumulation step leaves the base fields unchanged. -/
theorem hostnameAccumulate_base (r : Except Status (List ResolvedAddress))
    (s : HostnameState) : (hostnameAccumulate r s).base = s.base := by
  cases r <;> rfl

/-- Helper: the accumulation step leaves the posted callback unchanged. -/
theorem hostnameAccumulate_posted (r : Except Status (List ResolvedAddress))
    (s : HostnameState) : (hostnameAccumulate r s).posted = s.posted := by
  cases r <;> rfl

/-- Helper: the accumulation step decrements the pending counter. -/
theorem hostnameAccumulate_pending (r : Except Status (List ResolvedAddress))
    (s : HostnameState) :
    (hostnameAccumulate r s).pending_queries = s.pending_queries - 1 := by
  cases r <;> rfl

/-- Helper: the addresses accumulated by one step. -/
theorem hostnameAccumulate_result (r : Except Status (List ResolvedAddress))
    (s : HostnameState) :
    (hostnameAccumulate r s).result
      = s.result ++ (match r with
          | Except.ok addrs => addrs
          | Except.error _ => []) := by
  cases r <;> simp [hostnameAccumulate]

/-- Helper: the error accumulated by one step. -/
theorem hostnameAccumulate_error (r : Except Status (List ResolvedAddress))
    (s : HostnameState) :
    (hostnameAccumulate r s).error
      = (match r with
          | Except.ok _ => s.error
          | Except.error e => grpc_error_add_child s.error e) := by
  cases r <;> rfl

/-- Helper: `accumulatedAddresses` unfolded one step. -/
theorem accumulatedAddresses_cons (r : Except Status (List ResolvedAddress))
    (rs : List (Except Status (List ResolvedAddress))) :
    accumulatedAddresses (r :: rs)
      = (match r with
          | Except.ok addrs => addrs
          | Except.error _ => []) ++ accumulatedAddresses rs := by
  cases r <;> simp [accumulatedAddresses]

/-- Helper: `accumulatedErrorFrom` unfolded one step. -/
theorem accumulatedErrorFrom_cons (e : Status)
    (r : Except Status (List ResolvedAddress))
    (rs : List (Except Status (List ResolvedAddress))) :
    accumulatedErrorFrom e (r :: rs)
      = accumulatedErrorFrom
          (match r with
            | Except.ok _ => e
            | Except.error st => grpc_error_add_child e st) rs := by
  cases r <;> rfl

/-- Helper: a non-final per-query completion just accumulates. -/
theorem hostnameOnResolve_step_mid (key : ResolvedAddress → Nat)
    (r : Except Status (List ResolvedAddress)) (s : HostnameState)
    (h0 : s.pending_queries ≠ 0)
    (h1 : (hostnameAccumulate r s).pending_queries ≠ 0) :
    hostnameOnResolve key r s = some (hostnameAccumulate r s) := by
  simp only [hostnameOnResolve]
  rw [if_neg h0, if_pos h1]

/-- Helper: the final per-query completion of a non-cancelled request posts
the sorted accumulated addresses when any, else the (non-ok) accumulated
error. -/
theorem hostnameOnResolve_step_last (key : ResolvedAddress → Nat)
    (r : Except Status (List ResolvedAddress)) (s : HostnameState)
    (h0 : s.pending_queries = 1) (hc : s.base.cancelled = false)
    (ha : (hostnameAccumulate r s).result = [] →
      (hostnameAccumulate r s).error.isOk = false) :
    ∃ final, hostnameOnResolve key r s = some final ∧
      final.posted = some (
        if (hostnameAccumulate r s).result = [] then
          Except.error (hostnameAccumulate r s).error
        else
          Except.ok (sortResolvedAddresses key (hostnameAccumulate r s).result)) := by
  simp only [hostnameOnResolve]
  rw [if_neg (show ¬s.pending_queries = 0 by omega)]
  rw [if_neg (show ¬(hostnameAccumulate r s).pending_queries ≠ 0 by
    rw [hostnameAccumulate_pending, h0]
    simp)]
  simp only [hostnameComplete]
  rw [if_neg (show ¬(hostnameAccumulate r s).base.cancelled = true by
    rw [hostnameAccumulate_base, hc]
    simp)]
  by_cases hres : (hostnameAccumulate r s).result = []
  · rw [if_neg (show ¬(hostnameAccumulate r s).result ≠ [] by simp [hres])]
    rw [if_neg (show ¬(hostnameAccumulate r s).error.isOk = true by
      simp [ha hres])]
    exact ⟨_, rfl, by rw [if_pos hres]⟩
  · rw [if_pos hres]
    exact ⟨_, rfl, by rw [if_neg hres]⟩

/-- Helper: on a cancelled request, one per-query completion neither posts
nor clears the cancellation flag. -/
theorem hostnameOnResolve_cancelled_step (key : ResolvedAddress → Nat)
    (r : Except Status (List ResolvedAddress)) (s s1 : HostnameState)
    (hc : s.base.cancelled = true)
    (ho : hostnameOnResolve key r s = some s1) :
    s1.posted = s.posted ∧ s1.base.cancelled = true := by
  simp only [hostnameOnResolve] at ho
  by_cases h0 : s.pending_queries = 0
  · rw [if_pos h0] at ho
    exact absurd ho (by simp)
  · rw [if_neg h0] at ho
    by_cases h1 : (hostnameAccumulate r s).pending_queries ≠ 0
    · rw [if_pos h1] at ho
      simp only [Option.some.injEq] at ho
      subst ho
      rw [hostnameAccumulate_posted, hostnameAccumulate_base]
      exact ⟨rfl, hc⟩
    · rw [if_neg h1] at ho
      simp only [hostnameComplete] at ho
      rw [if_pos (show (hostnameAccumulate r s).base.cancelled = true by
        rw [hostnameAccumulate_base]; exact hc)] at ho
      simp only [Option.some.injEq] at ho
      subst ho
      rw [hostnameAccumulate_posted, hostnameAccumulate_base]
      exact ⟨rfl, hc⟩

/-- Helper: on a cancelled request, no sequence of per-query completions ever
posts the user callback. -/
theorem runHostnameOnResolve_cancelled_silent (key : ResolvedAddress → Nat)
    (rs : List (Except Status (List ResolvedAddress))) :
    ∀ (s s' : HostnameState), s.base.cancelled = true →
      runHostnameOnResolve key rs s = some s' →
      s'.posted = s.posted ∧ s'.base.cancelled = true := by
  induction rs with
  | nil =>
    intro s s' hc hrun
    simp only [runHostnameOnResolve, Option.some.injEq] at hrun
    subst hrun
    exact ⟨rfl, hc⟩
  | cons r rs ih =>
    intro s s' hc hrun
    simp only [runHostnameOnResolve] at hrun
    rcases ho : hostnameOnResolve key r s with _ | s1
    · rw [ho] at hrun
      exact absurd hrun (by simp)
    · rw [ho, Option.some_bind] at hrun
      obtain ⟨h1p, h1c⟩ := hostnameOnResolve_cancelled_step key r s s1 hc ho
      obtain ⟨h2p, h2c⟩ := ih s1 s' h1c hrun
      exact ⟨h2p.trans h1p, h2c⟩

/-- Helper: a `Cancel` that reports the first transition has set the
`cancelled_` flag. -/
theorem Cancel_true_sets_cancelled (b : RequestBase)
    (h : (Cancel b).1 = true) : (Cancel b).2.cancelled = true := by
  unfold Cancel at *
  by_cases hb : b.shutting_down = true
  · rw [if_pos hb] at h
    exact absurd h (by simp)
  · rw [if_neg hb]
    rfl

/-- C2: `Cancel` returns true iff it is the first transition of
`shutting_down` from false to true (a second `Cancel`, or one after
completion or timeout set `shutting_down`, returns false); and once `Cancel`
has returned true, the per-query completions observe `cancelled = true` and
never post the user callback — for hostname requests along any sequence of
sub-query completions, and for SRV and TXT requests at their single-shot
completion. -/
theorem cancel_first_transition_and_silence :
    (∀ b : RequestBase, (Cancel b).1 = true ↔ b.shutting_down = false) ∧
    (∀ (key : ResolvedAddress → Nat)
        (rs : List (Except Status (List ResolvedAddress)))
        (s : HostnameState) (s' : HostnameState),
        (hostnameCancel s).1 = true →
        runHostnameOnResolve key rs (hostnameCancel s).2 = some s' →
        s'.posted = s.posted ∧ s'.base.cancelled = true) ∧
    (∀ (r : Except Status (List SRVRecord)) (s : SRVState),
        (srvCancel s).1 = true →
        (srvOnResolve r (srvCancel s).2).posted = s.posted) ∧
    (∀ (r : Except Status (List Nat)) (s : TXTState),
        (txtCancel s).1 = true →
        (txtOnResolve r (txtCancel s).2).posted = s.posted) := by
  refine ⟨?_, ?_, ?_, ?_⟩
  · intro b
    by_cases hb : b.shutting_down = true <;>
      simp [Cancel, hb]
  · intro key rs s s' hct hrun
    have hcc : (hostnameCancel s).2.base.cancelled = true := by
      simp only [hostnameCancel]
      exact Cancel_true_sets_cancelled s.base hct
    obtain ⟨hp, hc⟩ := runHostnameOnResolve_cancelled_silent key rs _ s' hcc hrun
    exact ⟨hp.trans rfl, hc⟩
  · intro r s hct
    have hcc : (srvCancel s).2.base.cancelled = true :=
      Cancel_true_sets_cancelled s.base hct
    simp only [srvOnResolve]
    rw [if_pos hcc]
    rfl
  · intro r s hct
    have hcc : (txtCancel s).2.base.cancelled = true :=
      Cancel_true_sets_cancelled s.base hct
    simp only [txtOnResolve]
    rw [if_pos hcc]
    rfl

/-- Witness for C2 at concrete states: a fresh single-query request is
cancelled once, then fed an error completion that posts nothing. -/
theorem cancel_first_transition_and_silence_witness :
    ((Cancel (initialHostnameState 1).base).1 = true
      ↔ (initialHostnameState 1).base.shutting_down = false) ∧
    ((⟨⟨true, true, [], false, false⟩, 0, [], mkUnknownError "boom",
        none⟩ : HostnameState).posted = (initialHostnameState 1).posted
      ∧ (⟨⟨true, true, [], false, false⟩, 0, [], mkUnknownError "boom",
          none⟩ : HostnameState).base.cancelled = true) ∧
    ((srvOnResolve (Except.error (mkUnknownError "boom"))
        (srvCancel ⟨⟨false, false, [], true, true⟩, none⟩).2).posted
      = (⟨⟨false, false, [], true, true⟩, none⟩ : SRVState).posted) ∧
    ((txtOnResolve (Except.error (mkUnknownError "boom"))
        (txtCancel ⟨⟨false, false, [], true, true⟩, none⟩).2).posted
      = (⟨⟨false, false, [], true, true⟩, none⟩ : TXTState).posted) :=
  ⟨cancel_first_transition_and_silence.1 (initialHostnameState 1).base,
   cancel_first_transition_and_silence.2.1 (fun _ => 0)
     [Except.error (mkUnknownError "boom")] (initialHostnameState 1)
     ⟨⟨true, true, [], false, false⟩, 0, [], mkUnknownError "boom", none⟩
     rfl rfl,
   cancel_first_transition_and_silence.2.2.1 (Except.error (mkUnknownError "boom"))
     ⟨⟨false, false, [], true, true⟩, none⟩ rfl,
   cancel_first_transition_and_silence.2.2.2 (Except.error (mkUnknownError "boom"))
     ⟨⟨false, false, [], true, true⟩, none⟩ rfl⟩

/-! ### Status-folding lemmas -/

/-- Helper: adding a child never turns a non-ok status ok. -/
theorem grpc_error_add_child_nonok (p c : Status) (hp : p.isOk = false) :
    (grpc_error_add_child p c).isOk = false := by
  unfold grpc_error_add_child
  rw [if_neg (by simp [hp])]
  by_cases hc : c.isOk = true
  · rw [if_pos hc]
    exact hp
  · rw [if_neg hc]
    exact hp

/-- Helper: adding a child to the ok status yields the child. -/
theorem grpc_error_add_child_ok (c : Status) :
    grpc_error_add_child okStatus c = c := by
  unfold grpc_error_add_child
  rw [if_pos (by rfl)]

/-- Helper: error folding preserves non-ok-ness. -/
theorem accumulatedErrorFrom_nonok
    (rs : List (Except Status (List ResolvedAddress))) :
    ∀ e0 : Status, e0.isOk = false →
      (accumulatedErrorFrom e0 rs).isOk = false := by
  induction rs with
  | nil => intro e0 h; exact h
  | cons r rs ih =>
    intro e0 h
    rw [accumulatedErrorFrom_cons]
    cases r with
    | ok addrs => exact ih e0 h
    | error e => exact ih _ (grpc_error_add_child_nonok e0 e h)

/-- Helper: when nothing was accumulated and every ok completion was
non-empty, every completion was an error. -/
theorem accumulated_empty_all_errors
    (rs : List (Except Status (List ResolvedAddress)))
    (hok : okReportsNonempty rs = true)
    (hacc : accumulatedAddresses rs = []) :
    ∀ r ∈ rs, ∃ e, r = Except.error e := by
  induction rs with
  | nil => intro r hr; exact absurd hr (List.not_mem_nil r)
  | cons r0 rs ih =>
    intro r hr
    rw [accumulatedAddresses_cons, List.append_eq_nil] at hacc
    have hok' : okReportsNonempty rs = true := by
      simp only [okReportsNonempty, List.all_cons, Bool.and_eq_true] at hok
      exact hok.2
    rcases List.mem_cons.mp hr with rfl | hr2
    · cases h0 : r with
      | ok addrs =>
        subst h0
        simp only [okReportsNonempty, List.all_cons, Bool.and_eq_true] at hok
        have haddrs : addrs = [] := hacc.1
        rw [haddrs] at hok
        exact absurd hok.1 (by simp)
      | error e => exact ⟨e, rfl⟩
    · exact ih hok' hacc.2 r hr2

/-- Helper: a non-empty all-error completion sequence with non-ok error
statuses folds to a non-ok accumulated error. -/
theorem accumulatedErrorFrom_all_errors_nonok
    (rs : List (Except Status (List ResolvedAddress)))
    (hne : rs ≠ []) (herr : errorReportsNonOk rs = true)
    (hall : ∀ r ∈ rs, ∃ e, r = Except.error e) :
    (accumulatedErrorFrom okStatus rs).isOk = false := by
  cases rs with
  | nil => exact absurd rfl hne
  | cons r0 rs =>
    obtain ⟨e, he⟩ := hall r0 (List.mem_cons_self r0 rs)
    subst he
    rw [accumulatedErrorFrom_cons]
    simp only [errorReportsNonOk, List.all_cons, Bool.and_eq_true] at herr
    have henok : e.isOk = false := by
      rcases h : e.isOk with _ | _
      · rfl
      · rw [h] at herr
        exact absurd herr.1 (by simp)
    show (accumulatedErrorFrom (grpc_error_add_child okStatus e) rs).isOk = false
    rw [grpc_error_add_child_ok]
    exact accumulatedErrorFrom_nonok rs e henok

/-- Helper: from a non-cancelled state whose pending counter equals the
number of completions still to arrive, running every completion succeeds and
posts the combined outcome: the sorted accumulated addresses when any were
accumulated, else the accumulated error. -/
theorem runHostnameOnResolve_completion_spec (key : ResolvedAddress → Nat) :
    ∀ (rs : List (Except Status (List ResolvedAddress))) (s : HostnameState),
      rs ≠ [] → s.pending_queries = rs.length → s.base.cancelled = false →
      (s.result ++ accumulatedAddresses rs = [] →
        (accumulatedErrorFrom s.error rs).isOk = false) →
      ∃ final, runHostnameOnResolve key rs s = some final ∧
        final.posted = some (
          if s.result ++ accumulatedAddresses rs = [] then
            Except.error (accumulatedErrorFrom s.error rs)
          else Except.ok (sortResolvedAddresses key
            (s.result ++ accumulatedAddresses rs))) := by
  intro rs
  induction rs with
  | nil => intro s hne; exact absurd rfl hne
  | cons r rs ih =>
    intro s _ hp hc ha
    have hres_eq : (hostnameAccumulate r s).result
        ++ accumulatedAddresses rs = s.result ++ accumulatedAddresses (r :: rs) := by
      rw [hostnameAccumulate_result, accumulatedAddresses_cons, List.append_assoc]
    have herr_eq : accumulatedErrorFrom (hostnameAccumulate r s).error rs
        = accumulatedErrorFrom s.error (r :: rs) := by
      rw [hostnameAccumulate_error, accumulatedErrorFrom_cons]
    cases rs with
    | nil =>
      have hp1 : s.pending_queries = 1 := by simpa using hp
      have ha' : (hostnameAccumulate r s).result = [] →
          (hostnameAccumulate r s).error.isOk = false := by
        intro h
        have h2 : (hostnameAccumulate r s).result ++ accumulatedAddresses [] = [] := by
          simpa [accumulatedAddresses] using h
        rw [hres_eq] at h2
        have := ha h2
        rw [← herr_eq] at this
        exact this
      obtain ⟨final, heq, hpost⟩ := hostnameOnResolve_step_last key r s hp1 hc ha'
      refine ⟨final, ?_, ?_⟩
      · simp only [runHostnameOnResolve, heq, Option.some_bind]
      · rw [hpost]
        have hres1 : (hostnameAccumulate r s).result
            = s.result ++ accumulatedAddresses [r] := by
          have := hres_eq
          simpa [accumulatedAddresses] using this
        have herr1 : (hostnameAccumulate r s).error
            = accumulatedErrorFrom s.error [r] := by
          have := herr_eq
          simpa [accumulatedErrorFrom] using this.symm
        rw [hres1, herr1]
    | cons r2 rs2 =>
      have h0 : s.pending_queries ≠ 0 := by
        rw [hp]
        simp
      have h1 : (hostnameAccumulate r s).pending_queries ≠ 0 := by
        rw [hostnameAccumulate_pending, hp]
        simp
      have hmid := hostnameOnResolve_step_mid key r s h0 h1
      have hp' : (hostnameAccumulate r s).pending_queries = (r2 :: rs2).length := by
        rw [hostnameAccumulate_pending, hp]
        simp
      have hc' : (hostnameAccumulate r s).base.cancelled = false := by
        rw [hostnameAccumulate_base]
        exact hc
      have ha' : (hostnameAccumulate r s).result
          ++ accumulatedAddresses (r2 :: rs2) = [] →
          (accumulatedErrorFrom (hostnameAccumulate r s).error (r2 :: rs2)).isOk
            = false := by
        intro h
        rw [hres_eq] at h
        rw [herr_eq]
        exact ha h
      obtain ⟨final, hrun, hpost⟩ :=
        ih (hostnameAccumulate r s) (by simp) hp' hc' ha'
      refine ⟨final, ?_, ?_⟩
      · simp only [runHostnameOnResolve, hmid, Option.some_bind]
        exact hrun
      · rw [hpost, hres_eq, herr_eq]

/-- C1: for every hostname request in which the A and AAAA sub-queries have
all reported (the pending counter reaches 0) and that was not cancelled —
with every successful sub-query reporting at least one address and every
failed one a non-ok status, as the stub guarantees — the user callback is
posted with `ok(sorted addresses)` whenever the accumulated address list is
non-empty (any accumulated sub-query error is discarded from the
user-visible result), and with the accumulated error, which is then non-ok,
when the list is empty. -/
theorem hostname_combiner_partial_success (key : ResolvedAddress → Nat)
    (reports : List (Except Status (List ResolvedAddress)))
    (hne : reports ≠ []) (hok : okReportsNonempty reports = true)
    (herr : errorReportsNonOk reports = true) :
    ∃ final,
      runHostnameOnResolve key reports (initialHostnameState reports.length)
        = some final ∧
      ((accumulatedAddresses reports ≠ [] ∧
          final.posted = some (Except.ok (sortResolvedAddresses key
            (accumulatedAddresses reports)))) ∨
        (accumulatedAddresses reports = [] ∧
          (accumulatedErrorFrom okStatus reports).isOk = false ∧
          final.posted = some (Except.error
            (accumulatedErrorFrom okStatus reports)))) := by
  have hassert : (initialHostnameState reports.length).result
      ++ accumulatedAddresses reports = [] →
      (accumulatedErrorFrom (initialHostnameState reports.length).error
        reports).isOk = false := by
    intro h
    have hacc : accumulatedAddresses reports = [] := by
      simpa [initialHostnameState] using h
    exact accumulatedErrorFrom_all_errors_nonok reports hne herr
      (accumulated_empty_all_errors reports hok hacc)
  obtain ⟨final, hrun, hpost⟩ :=
    runHostnameOnResolve_completion_spec key reports
      (initialHostnameState reports.length) hne rfl rfl hassert
  refine ⟨final, hrun, ?_⟩
  by_cases hacc : accumulatedAddresses reports = []
  · refine Or.inr ⟨hacc, ?_, ?_⟩
    · exact accumulatedErrorFrom_all_errors_nonok reports hne herr
        (accumulated_empty_all_errors reports hok hacc)
    · rw [hpost, if_pos (by simpa [initialHostnameState] using hacc)]
      rfl
  · refine Or.inl ⟨hacc, ?_⟩
    rw [hpost, if_neg (by simpa [initialHostnameState] using hacc)]
    rfl

/-- Witness for C1: one successful A completion and one failed AAAA
completion; the posted outcome is the sorted single address, the error
discarded. -/
theorem hostname_combiner_partial_success_witness :
    ∃ final,
      runHostnameOnResolve (fun _ => 0)
        [Except.ok [⟨AF_INET, htons 80, [1, 2, 3, 4]⟩],
          Except.error (mkUnknownError "dns fail")]
        (initialHostnameState
          ([Except.ok [⟨AF_INET, htons 80, [1, 2, 3, 4]⟩],
            Except.error (mkUnknownError "dns fail")] :
              List (Except Status (List ResolvedAddress))).length)
        = some final ∧
      ((accumulatedAddresses
          [Except.ok [⟨AF_INET, htons 80, [1, 2, 3, 4]⟩],
            Except.error (mkUnknownError "dns fail")] ≠ [] ∧
          final.posted = some (Except.ok (sortResolvedAddresses (fun _ => 0)
            (accumulatedAddresses
              [Except.ok [⟨AF_INET, htons 80, [1, 2, 3, 4]⟩],
                Except.error (mkUnknownError "dns fail")])))) ∨
        (accumulatedAddresses
            [Except.ok [⟨AF_INET, htons 80, [1, 2, 3, 4]⟩],
              Except.error (mkUnknownError "dns fail")] = [] ∧
          (accumulatedErrorFrom okStatus
            [Except.ok [⟨AF_INET, htons 80, [1, 2, 3, 4]⟩],
              Except.error (mkUnknownError "dns fail")]).isOk = false ∧
          final.posted = some (Except.error (accumulatedErrorFrom okStatus
            [Except.ok [⟨AF_INET, htons 80, [1, 2, 3, 4]⟩],
              Except.error (mkUnknownError "dns fail")])))) :=
  hostname_combiner_partial_success (fun _ => 0)
    [Except.ok [⟨AF_INET, htons 80, [1, 2, 3, 4]⟩],
      Except.error (mkUnknownError "dns fail")]
    (by simp) (by decide) (by decide)

/-- C6: every address delivered for a hostname request carries the request's
parsed port in its `sin_port`/`sin6_port` field in network byte order
(`htons`): the stub-query path builds every address that way, the IP-literal
fast path does too, and the RFC 6724 sort applied before posting preserves
the property. -/
theorem hostname_addresses_carry_port (port : Nat) :
    (∀ (qtype host : String) (hostent : Hostent)
        (addrs : List ResolvedAddress),
        onHostbynameDoneLocked qtype host port ARES_SUCCESS hostent
          = Except.ok addrs →
        ∀ a ∈ addrs, a.port_net = htons port) ∧
    (∀ (host : String) (addrs : List ResolvedAddress),
        resolveAsIPLiteralLocked host port = some addrs →
        ∀ a ∈ addrs, a.port_net = htons port) ∧
    (∀ (key : ResolvedAddress → Nat) (l : List ResolvedAddress),
        (∀ a ∈ l, a.port_net = htons port) →
        ∀ a ∈ sortResolvedAddresses key l, a.port_net = htons port) := by
  refine ⟨?_, ?_, ?_⟩
  · intro qtype host hostent addrs heq a ha
    simp only [onHostbynameDoneLocked, if_neg (by simp : ¬ARES_SUCCESS ≠ ARES_SUCCESS),
      Except.ok.injEq] at heq
    subst heq
    obtain ⟨bytes, _, hf⟩ := List.mem_filterMap.mp ha
    by_cases h6 : hostent.h_addrtype = AF_INET6
    · rw [if_pos h6, Option.some.injEq] at hf
      rw [← hf]
    · rw [if_neg h6] at hf
      by_cases h4 : hostent.h_addrtype = AF_INET
      · rw [if_pos h4, Option.some.injEq] at hf
        rw [← hf]
      · rw [if_neg h4] at hf
        exact absurd hf (by simp)
  · intro host addrs heq a ha
    simp only [resolveAsIPLiteralLocked] at heq
    rcases hv4 : parseIPv4Octets host with _ | octets
    · rw [hv4] at heq
      by_cases h6 : isIPv6LiteralHost host = true
      · rw [if_pos h6, Option.some.injEq] at heq
        subst heq
        simp only [List.mem_singleton] at ha
        rw [ha]
      · rw [if_neg h6] at heq
        exact absurd heq (by simp)
    · rw [hv4, Option.some.injEq] at heq
      subst heq
      simp only [List.mem_singleton] at ha
      rw [ha]
  · intro key l hl a ha
    exact hl a ((List.perm_insertionSort _ l).mem_iff.mp ha)

/-- Witness for C6: an AAAA hostent with one address, the literal
`"1.2.3.4"`, and a two-address sort, all at port 443. -/
theorem hostname_addresses_carry_port_witness :
    (∀ a ∈ ([⟨AF_INET6, htons 443, List.take 16 [1]⟩] : List ResolvedAddress),
      a.port_net = htons 443) ∧
    (∀ a ∈ ([⟨AF_INET, htons 443, [1, 2, 3, 4]⟩] : List ResolvedAddress),
      a.port_net = htons 443) ∧
    (∀ a ∈ sortResolvedAddresses (fun _ => 0)
        [⟨AF_INET, htons 443, [5, 6, 7, 8]⟩, ⟨AF_INET6, htons 443, []⟩],
      a.port_net = htons 443) :=
  ⟨(hostname_addresses_carry_port 443).1 "AAAA" "example.test"
      ⟨AF_INET6, [[1]]⟩ [⟨AF_INET6, htons 443, List.take 16 [1]⟩] rfl,
   (hostname_addresses_carry_port 443).2.1 "1.2.3.4"
      [⟨AF_INET, htons 443, [1, 2, 3, 4]⟩] rfl,
   (hostname_addresses_carry_port 443).2.2 (fun _ => 0)
      [⟨AF_INET, htons 443, [5, 6, 7, 8]⟩, ⟨AF_INET6, htons 443, []⟩]
      (by decide)⟩

/-! ### Socket-tracking loop lemmas -/

/-- Helper: popping some other socket keeps a node in the list. -/
theorem popFdNode_mem_of_ne (a : Nat) :
    ∀ (l : List FdNode) (n : FdNode), n ∈ l → n.as ≠ a →
      n ∈ (popFdNode a l).2 := by
  intro l
  induction l with
  | nil => intro n hn; exact absurd hn (List.not_mem_nil n)
  | cons x xs ih =>
    intro n hn hne
    rcases List.mem_cons.mp hn with rfl | hn2
    · simp only [popFdNode]
      rw [if_neg hne]
      exact List.mem_cons_self _ _
    · simp only [popFdNode]
      by_cases hx : x.as = a
      · rw [if_pos hx]
        exact hn2
      · rw [if_neg hx]
        exact List.mem_cons_of_mem _ (ih n hn2 hne)

/-- Helper: popping only removes. -/
theorem popFdNode_sublist (a : Nat) :
    ∀ l : List FdNode, List.Sublist (popFdNode a l).2 l := by
  intro l
  induction l with
  | nil => exact List.Sublist.refl _
  | cons x xs ih =>
    simp only [popFdNode]
    by_cases hx : x.as = a
    · rw [if_pos hx]
      exact List.sublist_cons_self x xs
    · rw [if_neg hx]
      exact List.Sublist.cons₂ x ih

/-- Helper: a popped node wraps the requested socket. -/
theorem popFdNode_some_as (a : Nat) :
    ∀ (l : List FdNode) (x : FdNode), (popFdNode a l).1 = some x → x.as = a := by
  intro l
  induction l with
  | nil => intro x hx; exact absurd hx (by simp [popFdNode])
  | cons y ys ih =>
    intro x hx
    simp only [popFdNode] at hx
    by_cases hy : y.as = a
    · rw [if_pos hy] at hx
      simp only [Option.some.injEq] at hx
      rw [← hx]
      exact hy
    · rw [if_neg hy] at hx
      exact ih x hx

/-- Helper: the registration marks do not change the wrapped socket. -/
theorem setReadableReg_as (s : SockInterest) (n : FdNode) :
    (setReadableReg s n).as = n.as := by
  unfold setReadableReg
  split <;> rfl

/-- Helper: the registration marks do not change the wrapped socket. -/
theorem setWritableReg_as (s : SockInterest) (n : FdNode) :
    (setWritableReg s n).as = n.as := by
  unfold setWritableReg
  split <;> rfl

/-- Helper: the adopted node wraps the slot's socket. -/
theorem adoptNode_as (s : SockInterest) (popped : Option FdNode)
    (hp : ∀ x, popped = some x → x.as = s.as) :
    (adoptNode s popped).as = s.as := by
  unfold adoptNode
  rw [setWritableReg_as, setReadableReg_as]
  cases popped with
  | none => rfl
  | some x => exact hp x rfl

/-- Helper: a node whose socket no interesting slot mentions survives the
first `Work` loop untouched. -/
theorem workAdopt_keeps_unwanted :
    ∀ (socks : List SockInterest) (st : List FdNode × List FdNode) (n : FdNode),
      n ∈ st.1 →
      n.as ∉ (socks.filter (fun s => s.readable || s.writable)).map SockInterest.as →
      n ∈ (socks.foldl workAdoptSock st).1 := by
  intro socks
  induction socks with
  | nil => intro st n hn _; exact hn
  | cons s socks ih =>
    intro st n hn hout
    simp only [List.foldl_cons]
    by_cases hs : (s.readable || s.writable) = true
    · have hne : n.as ≠ s.as := by
        intro h
        apply hout
        rw [List.filter_cons_of_pos (by simpa using hs)]
        simp [h]
      have hout' : n.as ∉
          (socks.filter (fun s => s.readable || s.writable)).map SockInterest.as := by
        intro h
        apply hout
        rw [List.filter_cons_of_pos (by simpa using hs)]
        simp only [List.map_cons, List.mem_cons]
        exact Or.inr h
      refine ih _ n ?_ hout'
      simp only [workAdoptSock, if_pos hs]
      exact popFdNode_mem_of_ne s.as st.1 n hn hne
    · have hout' : n.as ∉
          (socks.filter (fun s => s.readable || s.writable)).map SockInterest.as := by
        intro h
        apply hout
        rw [List.filter_cons_of_neg (by simpa using hs)]
        exact h
      refine ih _ n ?_ hout'
      simp only [workAdoptSock, if_neg hs]
      exact hn

/-- Helper: the first `Work` loop only removes nodes from the old list. -/
theorem workAdopt_sublist :
    ∀ (socks : List SockInterest) (st : List FdNode × List FdNode),
      List.Sublist (socks.foldl workAdoptSock st).1 st.1 := by
  intro socks
  induction socks with
  | nil => intro st; exact List.Sublist.refl _
  | cons s socks ih =>
    intro st
    simp only [List.foldl_cons]
    refine (ih _).trans ?_
    simp only [workAdoptSock]
    by_cases hs : (s.readable || s.writable) = true
    · rw [if_pos hs]
      exact popFdNode_sublist s.as st.1
    · rw [if_neg hs]

/-- Helper: every node the first `Work` loop puts on the new list wraps a
socket some interesting slot mentions (or was on the new list already). -/
theorem workAdopt_new_wanted :
    ∀ (socks : List SockInterest) (st : List FdNode × List FdNode) (m : FdNode),
      m ∈ (socks.foldl workAdoptSock st).2 →
      m ∈ st.2 ∨ m.as ∈
        (socks.filter (fun s => s.readable || s.writable)).map SockInterest.as := by
  intro socks
  induction socks with
  | nil => intro st m hm; exact Or.inl hm
  | cons s socks ih =>
    intro st m hm
    simp only [List.foldl_cons] at hm
    rcases ih _ m hm with hm2 | hm2
    · simp only [workAdoptSock] at hm2
      by_cases hs : (s.readable || s.writable) = true
      · rw [if_pos hs] at hm2
        rcases List.mem_append.mp hm2 with hm3 | hm3
        · exact Or.inl hm3
        · refine Or.inr ?_
          rw [List.filter_cons_of_pos (by simpa using hs)]
          simp only [List.map_cons, List.mem_cons]
          refine Or.inl ?_
          rw [List.mem_singleton.mp hm3]
          exact adoptNode_as s _ (fun x hx => popFdNode_some_as s.as st.1 x hx)
      · rw [if_neg hs] at hm2
        exact Or.inl hm2
    · refine Or.inr ?_
      by_cases hs : (s.readable || s.writable) = true
      · rw [List.filter_cons_of_pos (by simpa using hs)]
        simp only [List.map_cons, List.mem_cons]
        exact Or.inr hm2
      · rw [List.filter_cons_of_neg (by simpa using hs)]
        exact hm2

/-- Helper: the shut-down copy of a leftover node. -/
theorem shut_eq (x : FdNode) :
    (if x.already_shutdown then x else { x with already_shutdown := true })
      = { x with already_shutdown := true } := by
  split
  · rename_i h
    cases x
    simp_all
  · rfl

/-- Helper: one step of the second `Work` loop, with the shut-down node, the
`ShutdownLocked` call and the deletion made explicit. -/
theorem workCleanup_cons (x : FdNode) (rest : List FdNode) :
    workCleanup (x :: rest)
      = ((if !x.readable_registered && !x.writable_registered then []
            else [{ x with already_shutdown := true }]) ++ (workCleanup rest).1,
         (if x.already_shutdown then [] else [(x.as, okStatus)])
            ++ (workCleanup rest).2.1,
         (if !x.readable_registered && !x.writable_registered then [x.as] else [])
            ++ (workCleanup rest).2.2) := by
  simp only [workCleanup]
  rw [shut_eq]
  dsimp only
  split <;> simp

/-- Helper: every not-yet-shut-down leftover node gets an ok `ShutdownLocked`
call. -/
theorem workCleanup_shutdown_mem :
    ∀ (rem : List FdNode) (n : FdNode), n ∈ rem → n.already_shutdown = false →
      (n.as, okStatus) ∈ (workCleanup rem).2.1 := by
  intro rem
  induction rem with
  | nil => intro n hn; exact absurd hn (List.not_mem_nil n)
  | cons x rest ih =>
    intro n hn hsf
    rw [workCleanup_cons]
    simp only [List.mem_append]
    rcases List.mem_cons.mp hn with rfl | hn2
    · refine Or.inl ?_
      rw [if_neg (by simp [hsf])]
      exact List.mem_singleton.mpr rfl
    · exact Or.inr (ih n hn2 hsf)

/-- Helper: every `ShutdownLocked` call of the second loop targets a leftover
node that had not been shut down, with the ok status. -/
theorem workCleanup_shutdown_src :
    ∀ (rem : List FdNode) (a : Nat) (st : Status),
      (a, st) ∈ (workCleanup rem).2.1 →
      ∃ m ∈ rem, m.as = a ∧ m.already_shutdown = false ∧ st = okStatus := by
  intro rem
  induction rem with
  | nil => intro a st h; exact absurd h (by simp [workCleanup])
  | cons x rest ih =>
    intro a st h
    rw [workCleanup_cons] at h
    rcases List.mem_append.mp h with h2 | h2
    · by_cases hx : x.already_shutdown = true
      · rw [if_pos hx] at h2
        exact absurd h2 (List.not_mem_nil _)
      · rw [if_neg hx] at h2
        have h3 := List.mem_singleton.mp h2
        have hsf : x.already_shutdown = false := by
          rcases hb : x.already_shutdown with _ | _
          · rfl
          · exact absurd hb hx
        exact ⟨x, List.mem_cons_self x rest, (congrArg Prod.fst h3).symm, hsf,
          congrArg Prod.snd h3⟩
    · obtain ⟨m, hm, hma, hms, hst⟩ := ih a st h2
      exact ⟨m, List.mem_cons_of_mem x hm, hma, hms, hst⟩

/-- Helper: a leftover node with no outstanding registration is deleted. -/
theorem workCleanup_deleted_mem :
    ∀ (rem : List FdNode) (n : FdNode), n ∈ rem →
      n.readable_registered = false → n.writable_registered = false →
      n.as ∈ (workCleanup rem).2.2 := by
  intro rem
  induction rem with
  | nil => intro n hn; exact absurd hn (List.not_mem_nil n)
  | cons x rest ih =>
    intro n hn hr hw
    rw [workCleanup_cons]
    simp only [List.mem_append]
    rcases List.mem_cons.mp hn with rfl | hn2
    · refine Or.inl ?_
      rw [if_pos (by simp [hr, hw])]
      exact List.mem_singleton.mpr rfl
    · exact Or.inr (ih n hn2 hr hw)

/-- Helper: every deleted socket belonged to a leftover node with no
outstanding registration. -/
theorem workCleanup_deleted_src :
    ∀ (rem : List FdNode) (a : Nat), a ∈ (workCleanup rem).2.2 →
      ∃ m ∈ rem, m.as = a ∧ m.readable_registered = false
        ∧ m.writable_registered = false := by
  intro rem
  induction rem with
  | nil => intro a h; exact absurd h (by simp [workCleanup])
  | cons x rest ih =>
    intro a h
    rw [workCleanup_cons] at h
    rcases List.mem_append.mp h with h2 | h2
    · by_cases hx : (!x.readable_registered && !x.writable_registered) = true
      · rw [if_pos hx] at h2
        simp only [Bool.and_eq_true, Bool.not_eq_true'] at hx
        exact ⟨x, List.mem_cons_self x rest, (List.mem_singleton.mp h2).symm,
          hx.1, hx.2⟩
      · rw [if_neg hx] at h2
        exact absurd h2 (List.not_mem_nil _)
    · obtain ⟨m, hm, hma, hmr, hmw⟩ := ih a h2
      exact ⟨m, List.mem_cons_of_mem x hm, hma, hmr, hmw⟩

/-- Helper: a leftover node with an outstanding registration is kept on the
new list, marked shut down. -/
theorem workCleanup_kept_mem :
    ∀ (rem : List FdNode) (n : FdNode), n ∈ rem →
      (n.readable_registered = true ∨ n.writable_registered = true) →
      { n with already_shutdown := true } ∈ (workCleanup rem).1 := by
  intro rem
  induction rem with
  | nil => intro n hn; exact absurd hn (List.not_mem_nil n)
  | cons x rest ih =>
    intro n hn hreg
    rw [workCleanup_cons]
    simp only [List.mem_append]
    rcases List.mem_cons.mp hn with rfl | hn2
    · refine Or.inl ?_
      rw [if_neg (by
        rcases hreg with h | h <;> simp [h])]
      exact List.mem_singleton.mpr rfl
    · exact Or.inr (ih n hn2 hreg)

/-- Helper: every node kept by the second loop is the shut-down copy of a
leftover node that had an outstanding registration. -/
theorem workCleanup_kept_src :
    ∀ (rem : List FdNode) (m : FdNode), m ∈ (workCleanup rem).1 →
      ∃ m0 ∈ rem, m.as = m0.as ∧
        (m0.readable_registered = true ∨ m0.writable_registered = true) := by
  intro rem
  induction rem with
  | nil => intro m h; exact absurd h (by simp [workCleanup])
  | cons x rest ih =>
    intro m h
    rw [workCleanup_cons] at h
    rcases List.mem_append.mp h with h2 | h2
    · by_cases hx : (!x.readable_registered && !x.writable_registered) = true
      · rw [if_pos hx] at h2
        exact absurd h2 (List.not_mem_nil _)
      · rw [if_neg hx] at h2
        have hm := List.mem_singleton.mp h2
        refine ⟨x, List.mem_cons_self x rest, by rw [hm], ?_⟩
        rcases hb : x.readable_registered with _ | _
        · rcases hb2 : x.writable_registered with _ | _
          · exact absurd (by simp [hb, hb2]) hx
          · exact Or.inr rfl
        · exact Or.inl rfl
    · obtain ⟨m0, hm0, hma, hreg⟩ := ih m h2
      exact ⟨m0, List.mem_cons_of_mem x hm0, hma, hreg⟩

/-- C3: after a `Work` call, every `FdNode` of the old `fd_node_list` whose
socket is not among the stub's currently interesting sockets has been shut
down with an ok status (exactly when it had not already been shut down); it
is deleted iff it has neither a readable nor a writable registration
outstanding, and otherwise it survives — marked shut down — into the new
`fd_node_list`, which replaces the old one, so the pending callback can
still find it. -/
theorem work_reconciles_unwanted_nodes (sd : Bool) (socks : List SockInterest)
    (old : List FdNode) (hnodup : (old.map FdNode.as).Nodup)
    (n : FdNode) (hn : n ∈ old)
    (hout : n.as ∉ wantedSockets sd socks) :
    (n.already_shutdown = false →
        (n.as, okStatus) ∈ (Work sd socks old).shutdowns) ∧
    (n.already_shutdown = true →
        ∀ st : Status, (n.as, st) ∉ (Work sd socks old).shutdowns) ∧
    (n.readable_registered = false → n.writable_registered = false →
        n.as ∈ (Work sd socks old).deleted ∧
        ∀ m ∈ (Work sd socks old).fd_node_list, m.as ≠ n.as) ∧
    ((n.readable_registered = true ∨ n.writable_registered = true) →
        n.as ∉ (Work sd socks old).deleted ∧
        { n with already_shutdown := true } ∈ (Work sd socks old).fd_node_list) := by
  have hmain : ∃ (rem newL : List FdNode),
      n ∈ rem ∧ (rem.map FdNode.as).Nodup ∧ (∀ m ∈ newL, m.as ≠ n.as) ∧
      (Work sd socks old).shutdowns = (workCleanup rem).2.1 ∧
      (Work sd socks old).deleted = (workCleanup rem).2.2 ∧
      (Work sd socks old).fd_node_list = newL ++ (workCleanup rem).1 := by
    cases sd with
    | true =>
      exact ⟨old, [], hn, hnodup, fun m hm => absurd hm (List.not_mem_nil m),
        rfl, rfl, rfl⟩
    | false =>
      have hout' : n.as ∉
          (socks.filter (fun s => s.readable || s.writable)).map SockInterest.as := by
        simpa [wantedSockets] using hout
      refine ⟨(socks.foldl workAdoptSock (old, [])).1,
        (socks.foldl workAdoptSock (old, [])).2, ?_, ?_, ?_, rfl, rfl, rfl⟩
      · exact workAdopt_keeps_unwanted socks (old, []) n hn hout'
      · exact hnodup.sublist ((workAdopt_sublist socks (old, [])).map FdNode.as)
      · intro m hm heq
        rcases workAdopt_new_wanted socks (old, []) m hm with h2 | h2
        · exact absurd h2 (List.not_mem_nil m)
        · rw [heq] at h2
          exact hout' h2
  obtain ⟨rem, newL, hrem, hrnodup, hnewL, hsd, hdel, hfdl⟩ := hmain
  refine ⟨?_, ?_, ?_, ?_⟩
  · intro hsf
    rw [hsd]
    exact workCleanup_shutdown_mem rem n hrem hsf
  · intro hst st hmem
    rw [hsd] at hmem
    obtain ⟨m, hm, hma, hmsf, _⟩ := workCleanup_shutdown_src rem n.as st hmem
    have hmn : m = n := List.inj_on_of_nodup_map hrnodup hm hrem hma
    rw [hmn] at hmsf
    rw [hst] at hmsf
    exact Bool.noConfusion hmsf
  · intro hr hw
    constructor
    · rw [hdel]
      exact workCleanup_deleted_mem rem n hrem hr hw
    · intro m hm heq
      rw [hfdl] at hm
      rcases List.mem_append.mp hm with hm2 | hm2
      · exact hnewL m hm2 heq
      · obtain ⟨m0, hm0, hma, hreg⟩ := workCleanup_kept_src rem m hm2
        have hm0n : m0 = n :=
          List.inj_on_of_nodup_map hrnodup hm0 hrem (hma ▸ heq)
        rw [hm0n] at hreg
        rcases hreg with h | h
        · rw [hr] at h
          exact Bool.false_ne_true h
        · rw [hw] at h
          exact Bool.false_ne_true h
  · intro hreg
    constructor
    · intro hd
      rw [hdel] at hd
      obtain ⟨m, hm, hma, hmr, hmw⟩ := workCleanup_deleted_src rem n.as hd
      have hmn : m = n := List.inj_on_of_nodup_map hrnodup hm hrem hma
      rw [hmn] at hmr hmw
      rcases hreg with h | h
      · rw [hmr] at h
        exact Bool.false_ne_true h
      · rw [hmw] at h
        exact Bool.false_ne_true h
    · rw [hfdl]
      exact List.mem_append_right newL (workCleanup_kept_mem rem n hrem hreg)

/-- Witness for C3: one stale registered node (socket 7) while the stub only
wants socket 5. -/
theorem work_reconciles_unwanted_nodes_witness :
    ((⟨7, true, false, false⟩ : FdNode).already_shutdown = false →
        ((7 : Nat), okStatus) ∈
          (Work false [⟨5, true, false⟩] [⟨7, true, false, false⟩]).shutdowns) ∧
    ((⟨7, true, false, false⟩ : FdNode).already_shutdown = true →
        ∀ st : Status, ((7 : Nat), st) ∉
          (Work false [⟨5, true, false⟩] [⟨7, true, false, false⟩]).shutdowns) ∧
    ((⟨7, true, false, false⟩ : FdNode).readable_registered = false →
        (⟨7, true, false, false⟩ : FdNode).writable_registered = false →
        (7 : Nat) ∈
          (Work false [⟨5, true, false⟩] [⟨7, true, false, false⟩]).deleted ∧
        ∀ m ∈ (Work false [⟨5, true, false⟩]
            [⟨7, true, false, false⟩]).fd_node_list, m.as ≠ 7) ∧
    (((⟨7, true, false, false⟩ : FdNode).readable_registered = true ∨
        (⟨7, true, false, false⟩ : FdNode).writable_registered = true) →
        (7 : Nat) ∉
          (Work false [⟨5, true, false⟩] [⟨7, true, false, false⟩]).deleted ∧
        { (⟨7, true, false, false⟩ : FdNode) with already_shutdown := true } ∈
          (Work false [⟨5, true, false⟩] [⟨7, true, false, false⟩]).fd_node_list) :=
  work_reconciles_unwanted_nodes false [⟨5, true, false⟩]
    [⟨7, true, false, false⟩] (by decide) ⟨7, true, false, false⟩
    (by decide) (by decide)

end AresDriver
